import Mathlib

/-!
Verification of the bridggy client (src/index.ts) against its specification.

The development shallowly embeds the client's logic in Lean:

* the mutable fields of the `Bridggy` class become an explicit `State` record
  (JS `undefined` string fields are represented by `""`, which the code treats
  identically through its falsiness checks);
* platform builtins used by the code (`atob`, `btoa`, `JSON.parse`,
  `TextEncoder.encode`, `Headers`, `new URL`) are given executable models that
  follow the WHATWG/ECMA specifications at the fidelity the claims need
  (JSON numbers are restricted to integers — token claims carry integral
  epoch seconds — and `new URL` validation is reduced to the absolute-URL
  scheme check, its href normalization being irrelevant to the claims);
* network effects are made explicit: the transport's responses are inputs and
  each operation reports the requests it dispatched.
-/

/-! ## Small JS-style helpers (structural, kernel-reducible) -/

/-- Split a character list at every `'.'`, as JS `str.split('.')` does:
`""` yields `[""]`, and separators at the ends yield empty segments. -/
def splitDot : List Char → List (List Char)
  | [] => [[]]
  | c :: rest =>
    if c = '.' then [] :: splitDot rest
    else
      match splitDot rest with
      | [] => [[c]]
      | p :: ps => (c :: p) :: ps

/-- ASCII lowercasing of a character, as `String.prototype.toLowerCase`
acts on ASCII header names. -/
def lowerChar (c : Char) : Char :=
  if 'A' ≤ c ∧ c ≤ 'Z' then Char.ofNat (c.toNat + 32) else c

def lowerStr (s : String) : String :=
  String.mk (s.data.map lowerChar)

/-! ## Base64: models of `atob` (WHATWG forgiving-base64 decode) and `btoa` -/

def b64Chars : List Char :=
  "ABCDEFGHIJKLMNOPQRSTUVWXYZabcdefghijklmnopqrstuvwxyz0123456789+/".data

def idxOfChar (c : Char) : List Char → Nat → Option Nat
  | [], _ => none
  | d :: rest, i => if d == c then some i else idxOfChar c rest (i + 1)

/-- The sextet value of a base64 alphabet character (`none` off-alphabet). -/
def charSextet (c : Char) : Option Nat :=
  idxOfChar c b64Chars 0

/-- The base64 alphabet character of a sextet. -/
def sextetChar (n : Nat) : Char :=
  b64Chars.getD n 'A'

/-- Map every character to its sextet, failing on any off-alphabet one. -/
def sextetsOf : List Char → Option (List Nat)
  | [] => some []
  | c :: rest =>
    match charSextet c with
    | none => none
    | some n => (sextetsOf rest).map (n :: ·)

/-- Reassemble bytes from a sextet stream: full groups of four sextets give
three bytes; a trailing group of two or three gives one or two bytes with the
leftover low bits discarded; a trailing single sextet is an error.
This is the bit layout of WHATWG forgiving-base64. -/
def decodeSextets : List Nat → Option (List Nat)
  | [] => some []
  | [_] => none
  | [s0, s1] => some [s0 * 4 + s1 / 16]
  | [s0, s1, s2] => some [s0 * 4 + s1 / 16, s1 % 16 * 16 + s2 / 4]
  | s0 :: s1 :: s2 :: s3 :: rest =>
    (decodeSextets rest).map
      (fun bs => (s0 * 4 + s1 / 16) :: (s1 % 16 * 16 + s2 / 4) :: (s2 % 4 * 64 + s3) :: bs)

def isB64Ws (c : Char) : Bool :=
  c == ' ' || c == '\t' || c == '\n' || c == '\x0c' || c == '\r'

/-- Remove one or two trailing `'='` characters. -/
def stripUpTo2Eq (cs : List Char) : List Char :=
  match cs.reverse with
  | '=' :: '=' :: rest => rest.reverse
  | '=' :: rest => rest.reverse
  | _ => cs

/-- Model of the platform `atob`: WHATWG forgiving-base64 decode to a byte
list. Strips ASCII whitespace, removes up to two trailing `'='` when the
length is a multiple of four, rejects a remainder-one length and any
off-alphabet character. -/
def atobModel (s : String) : Option (List Nat) :=
  let cs := s.data.filter (fun c => !(isB64Ws c))
  let cs := if cs.length % 4 = 0 then stripUpTo2Eq cs else cs
  if cs.length % 4 = 1 then none
  else
    match sextetsOf cs with
    | none => none
    | some sx => decodeSextets sx

/-! ## JSON: model of `JSON.parse`, restricted to integral numbers -/

inductive JValue where
  | null
  | bool (b : Bool)
  | num (n : Int)
  | str (s : String)
  | arr (elems : List JValue)
  | obj (fields : List (String × JValue))

def isJsonWs (c : Char) : Bool :=
  c == ' ' || c == '\t' || c == '\n' || c == '\r'

def skipJsonWs (cs : List Char) : List Char :=
  cs.dropWhile isJsonWs

def hexVal (c : Char) : Option Nat :=
  if '0' ≤ c ∧ c ≤ '9' then some (c.toNat - '0'.toNat)
  else if 'a' ≤ c ∧ c ≤ 'f' then some (c.toNat - 'a'.toNat + 10)
  else if 'A' ≤ c ∧ c ≤ 'F' then some (c.toNat - 'A'.toNat + 10)
  else none

def escChar : Char → Option Char
  | '"' => some '"'
  | '\\' => some '\\'
  | '/' => some '/'
  | 'b' => some (Char.ofNat 8)
  | 'f' => some (Char.ofNat 12)
  | 'n' => some (Char.ofNat 10)
  | 'r' => some (Char.ofNat 13)
  | 't' => some (Char.ofNat 9)
  | _ => none

/-- Parse the characters of a JSON string after the opening quote, up to and
including the closing quote. Rejects raw control characters and unknown
escapes. -/
def parseStrChars : List Char → Option (List Char × List Char)
  | [] => none
  | '"' :: rest => some ([], rest)
  | '\\' :: 'u' :: h1 :: h2 :: h3 :: h4 :: rest => do
    let a ← hexVal h1
    let b ← hexVal h2
    let c ← hexVal h3
    let d ← hexVal h4
    let (s, r) ← parseStrChars rest
    pure (Char.ofNat (a * 4096 + b * 256 + c * 16 + d) :: s, r)
  | '\\' :: e :: rest => do
    let c ← escChar e
    let (s, r) ← parseStrChars rest
    pure (c :: s, r)
  | c :: rest =>
    if c.toNat < 0x20 then none
    else do
      let (s, r) ← parseStrChars rest
      pure (c :: s, r)

def parseDigits (cs : List Char) : List Char × List Char :=
  (cs.takeWhile (fun c => '0' ≤ c ∧ c ≤ '9'), cs.dropWhile (fun c => '0' ≤ c ∧ c ≤ '9'))

def digitsVal (ds : List Char) : Nat :=
  ds.foldl (fun acc c => acc * 10 + (c.toNat - '0'.toNat)) 0

/-- Parse a JSON number (model restricted to optionally signed integers
without leading zeros, which covers the integral epoch-second claims carried
by tokens). -/
def parseNum (cs : List Char) : Option (Int × List Char) :=
  let (neg, cs') := match cs with
    | '-' :: t => (true, t)
    | _ => (false, cs)
  match parseDigits cs' with
  | ([], _) => none
  | ('0' :: _ :: _, _) => none
  | (ds, rest) =>
    let v : Int := Int.ofNat (digitsVal ds)
    some (if neg then -v else v, rest)

mutual

/-- Fuel-indexed model of `JSON.parse` value parsing. -/
def parseVal (fuel : Nat) (cs : List Char) : Option (JValue × List Char) :=
  match fuel with
  | 0 => none
  | fuel + 1 =>
    match skipJsonWs cs with
    | 'n' :: 'u' :: 'l' :: 'l' :: rest => some (.null, rest)
    | 't' :: 'r' :: 'u' :: 'e' :: rest => some (.bool true, rest)
    | 'f' :: 'a' :: 'l' :: 's' :: 'e' :: rest => some (.bool false, rest)
    | '"' :: rest =>
      match parseStrChars rest with
      | none => none
      | some (s, r) => some (.str (String.mk s), r)
    | '[' :: rest =>
      (match skipJsonWs rest with
      | ']' :: r => some (.arr [], r)
      | _ =>
        match parseElems fuel rest with
        | none => none
        | some (es, r) => some (.arr es, r))
    | '\x7b' :: rest =>
      (match skipJsonWs rest with
      | '\x7d' :: r => some (.obj [], r)
      | _ =>
        match parseFields fuel rest with
        | none => none
        | some (fs, r) => some (.obj fs, r))
    | other =>
      match parseNum other with
      | none => none
      | some (n, rest) => some (.num n, rest)

/-- Comma-separated JSON array elements up to `']'`. -/
def parseElems (fuel : Nat) (cs : List Char) : Option (List JValue × List Char) :=
  match fuel with
  | 0 => none
  | fuel + 1 =>
    match parseVal fuel cs with
    | none => none
    | some (v, rest) =>
      match skipJsonWs rest with
      | ']' :: r => some ([v], r)
      | ',' :: r =>
        match parseElems fuel r with
        | none => none
        | some (vs, r') => some (v :: vs, r')
      | _ => none

/-- Comma-separated JSON object members up to the closing brace. -/
def parseFields (fuel : Nat) (cs : List Char) : Option (List (String × JValue) × List Char) :=
  match fuel with
  | 0 => none
  | fuel + 1 =>
    match skipJsonWs cs with
    | '"' :: rest =>
      (match parseStrChars rest with
      | none => none
      | some (k, rest') =>
        match skipJsonWs rest' with
        | ':' :: rest'' =>
          (match parseVal fuel rest'' with
          | none => none
          | some (v, rest3) =>
            match skipJsonWs rest3 with
            | '\x7d' :: r => some ([(String.mk k, v)], r)
            | ',' :: r =>
              (match parseFields fuel r with
              | none => none
              | some (fs, r') => some ((String.mk k, v) :: fs, r'))
            | _ => none)
        | _ => none)
    | _ => none

end

/-- Model of `JSON.parse`: parse one value and require only trailing
whitespace after it. -/
def parseJson (s : String) : Option JValue :=
  match parseVal (s.data.length + 1) s.data with
  | none => none
  | some (v, rest) =>
    match skipJsonWs rest with
    | [] => some v
    | _ => none

/-- JS property lookup on a parsed JSON value: `undefined` (`none`) unless
the value is an object carrying the key; later duplicate keys win, as in
`JSON.parse`. -/
def jGet (v : JValue) (k : String) : Option JValue :=
  match v with
  | .obj fields => fields.foldl (fun acc (k', v') => if k' == k then some v' else acc) none
  | _ => none

/-- JS template-literal rendering of a possibly-absent value
(`undefined` prints as `"undefined"`), for the payload fields the code
splices into URL templates. -/
def jsToString : Option JValue → String
  | none => "undefined"
  | some .null => "null"
  | some (.bool true) => "true"
  | some (.bool false) => "false"
  | some (.num n) => toString n
  | some (.str s) => s
  | some (.arr _) => ""
  | some (.obj _) => "[object Object]"

/-! ## Errors thrown by the client -/

/-- The errors the client can raise, one constructor per distinct `throw`
site (plus the two platform failures that can escape `getTokenPayload`). -/
inductive BridggyError where
  | notConfigured                -- 'Config not provided'
  | invalidToken                 -- 'Invalid token' (missing/empty payload segment)
  | atobError                    -- platform atob failure inside getTokenPayload
  | jsonError                    -- platform JSON.parse failure inside getTokenPayload
  | invalidOrMalformedToken      -- 'invalid or malformed token'
  | exchangeFailed (status : Nat)  -- `status: {status} proxy: Token exchange failed`
  | proxyError (msg : String)      -- `status: {proxyStatus} {proxyError}`
  | invalidInput (input : String)  -- TypeError naming the offending string
  | unsupportedInputType           -- 'Unsupported input type'
  | requestUrlInvalid              -- new URL(request.url) failure (unreachable in JS)
  | unreachableRetryFallthrough    -- 'proxy: unexpected fetch failed after retries'
  deriving DecidableEq, Repr

/-- The spec's `InvalidTokenFormat` family: the three ways `getTokenPayload`
can fail (absent/empty payload segment, base64 decode failure, JSON parse
failure). -/
def isTokenFormatError : BridggyError → Bool
  | .invalidToken => true
  | .atobError => true
  | .jsonError => true
  | _ => false

/-! ## `getTokenPayload`: decoding the claims segment -/

/-- Undo one URL-safe substitution: dash back to plus, underscore back to
forward slash. -/
def urlToStdChar (c : Char) : Char :=
  if c == '-' then '+' else if c == '_' then '/' else c

/-- The JS global replacements on the payload segment: every dash becomes
a plus and every underscore becomes a forward slash. -/
def b64urlToStd (cs : List Char) : List Char :=
  cs.map urlToStdChar

/-- Embedding of `Bridggy.getTokenPayload`: split on `'.'`, take the second
segment (JS falsiness makes an empty segment an error too), reverse the
URL-safe substitutions, `atob`, read the bytes as a JS (Latin-1) string and
`JSON.parse` it. -/
def getTokenPayload (token : String) : Except BridggyError JValue :=
  match (splitDot token.data)[1]? with
  | none => .error .invalidToken
  | some seg =>
    if seg = [] then .error .invalidToken
    else
      match atobModel (String.mk (b64urlToStd seg)) with
      | none => .error .atobError
      | some bytes =>
        match parseJson (String.mk (bytes.map Char.ofNat)) with
        | none => .error .jsonError
        | some v => .ok v

/-! ## Client state -/

/-- The mutable fields of the `Bridggy` class. JS leaves them `undefined`
until assigned; the code only ever observes the string fields through
falsiness checks, under which `undefined` and `""` coincide, so both are
represented by `""`. `undefined` is falsy in the `retry &&` test, so the
unassigned `retry` is represented by `false`. -/
structure State where
  proxyToken : String := ""
  token : String := ""
  retry : Bool := false
  deriving DecidableEq, Repr

/-- Configuration options (`Config` in types.ts). `retry` is optional. -/
structure Config where
  token : String
  retry : Option Bool := none
  deriving DecidableEq, Repr

/-- Embedding of `Bridggy.configure`: store the long-lived credential and
the retry flag, defaulting the latter to `true` (`config.retry ?? true`). -/
def configure (st : State) (c : Config) : State :=
  { st with proxyToken := c.token, retry := c.retry.getD true }

/-! ## `isTokenExpired` -/

/-- Embedding of `Bridggy.isTokenExpired` at time `now` (ms since epoch).
No token held (falsy field) reports expired. A decode failure or a missing /
non-numeric `exp` claim is caught by the surrounding `try` and re-thrown as
'invalid or malformed token'. Otherwise the JS comparison
`Date.now() > data.exp * 1000 - 60_000` decides expiry. -/
def isTokenExpired (st : State) (now : Nat) : Except BridggyError Bool :=
  if st.token = "" then .ok true
  else
    match getTokenPayload st.token with
    | .error _ => .error .invalidOrMalformedToken
    | .ok p =>
      match jGet p "exp" with
      | some (.num e) => .ok (decide ((now : Int) > e * 1000 - 60000))
      | _ => .error .invalidOrMalformedToken

/-! ## Header-name and value constants (src/index.ts lines 4-26) -/

def HeaderStatus0 : String := "gg-x-status"
def HeaderError0 : String := "gg-x-error"
def HeaderToken0 : String := "gg-x-token"
def HeaderTimestamp0 : String := "gg-x-timestamp"
def HeaderSource0 : String := "gg-x-source"

def NonProxyHeaders : List String :=
  ["user-agent", "x-forwarded-for", "cookie", "connection", "keep-alive",
   "transfer-encoding", "upgrade-insecure-requests", "priority"]

def SourceName : String := "client"
def RetryDelay : Nat := 2000

/-! ## `exchange` -/

/-- A request handed to the transport, with the fields the claims inspect. -/
structure SentRequest where
  url : String
  method : String
  headers : List (String × String)
  /-- the `token` field of the JSON body `\x7b token: ... \x7d` -/
  bodyToken : String
  deriving DecidableEq, Repr

/-- The transport-level response to the exchange call: success flag, HTTP
status, and the `token` field of its parsed JSON body. -/
structure ExchangeResp where
  ok : Bool
  status : Nat
  tokenField : String
  deriving DecidableEq, Repr

/-- Embedding of `Bridggy.exchange` at time `now`: decode the long-lived
credential's claims (a failure propagates before anything is sent), POST
`\x7b token: proxyToken \x7d` to `{aud}/token/exchange` with the
Content-Type, timestamp and source headers, fail with the exchange error on
a non-ok response, and otherwise store the response's `token` field as the
access credential. The second component lists the dispatched requests. -/
def exchange (st : State) (now : Nat) (resp : ExchangeResp) :
    Except BridggyError State × List SentRequest :=
  match getTokenPayload st.proxyToken with
  | .error e => (.error e, [])
  | .ok payload =>
    let sent : SentRequest :=
      { url := jsToString (jGet payload "aud") ++ "/token/exchange"
        method := "POST"
        headers := [("Content-Type", "application/json"),
                    (HeaderTimestamp0, toString now),
                    (HeaderSource0, SourceName)]
        bodyToken := st.proxyToken }
    if resp.ok then (.ok { st with token := resp.tokenField }, [sent])
    else (.error (.exchangeFailed resp.status), [sent])

/-! ## Input normalization (`getUrl`) -/

/-- A JS `URL` value, carried by its serialized href. -/
structure UrlObj where
  href : String
  deriving DecidableEq, Repr

/-- A JS `Request` value, restricted to the fields the client reads. -/
structure RequestObj where
  url : String
  method : String
  headers : List (String × String)
  body : Option String
  redirect : String
  deriving DecidableEq, Repr

/-- The input shapes `fetch` accepts; `other` stands for any untyped value
that is neither a string, a `URL` nor a `Request`. -/
inductive RequestInput where
  | str (s : String)
  | url (u : UrlObj)
  | request (r : RequestObj)
  | other
  deriving DecidableEq, Repr

def isSchemeChar (c : Char) : Bool :=
  c.isAlphanum || c == '+' || c == '-' || c == '.'

/-- Model of the platform `new URL` on a single absolute-URL string:
succeeds when the string opens with an ASCII-alpha-led scheme followed by
`':'`. Href normalization is omitted (the href is kept verbatim); the claims
quantify over the normalized href. -/
def urlParse (s : String) : Option UrlObj :=
  match s.data.takeWhile isSchemeChar, s.data.drop (s.data.takeWhile isSchemeChar).length with
  | c :: _, ':' :: _ => if c.isAlpha then some ⟨s⟩ else none
  | _, _ => none

/-- Embedding of `Bridggy.getUrl`: resolve the input to a URL value.
A string that does not parse raises the TypeError naming it; a URL value is
used directly; a Request contributes its own URL; anything else raises the
unsupported-input TypeError. -/
def getUrl (input : RequestInput) : Except BridggyError UrlObj :=
  match input with
  | .str s =>
    match urlParse s with
    | some u => .ok u
    | none => .error (.invalidInput s)
  | .url u => .ok u
  | .request r =>
    match urlParse r.url with
    | some u => .ok u
    | none => .error .requestUrlInvalid
  | .other => .error .unsupportedInputType

/-- The TypeError message raised for a non-URL string input. -/
def invalidInputMessage (s : String) : String :=
  "input string must be an absolute URL, got \"" ++ s ++ "\""

/-! ## Headers model

A WHATWG `Headers` object is represented in its iteration form: an
association list sorted by byte-lexicographic name order with lowercased
names and duplicate names already combined (`", "`-joined), which is exactly
the "sort and combine" view every observation of the object goes through. -/

def charListLtB : List Char → List Char → Bool
  | [], [] => false
  | [], _ :: _ => true
  | _ :: _, [] => false
  | a :: as, b :: bs =>
    a.toNat < b.toNat || (a.toNat == b.toNat && charListLtB as bs)

def strLtB (a b : String) : Bool :=
  charListLtB a.data b.data

/-- `Headers.append`: lowercase the name; combine with an existing entry's
value using `", "`, else insert in sorted position. -/
def headersAppend (hs : List (String × String)) (name value : String) : List (String × String) :=
  let k := lowerStr name
  match hs with
  | [] => [(k, value)]
  | (k', v') :: rest =>
    if k' == k then (k', v' ++ ", " ++ value) :: rest
    else if strLtB k k' then (k, value) :: (k', v') :: rest
    else (k', v') :: headersAppend rest name value

/-- `new Headers(pairs)`: append every pair in order. -/
def headersFromPairs (ps : List (String × String)) : List (String × String) :=
  ps.foldl (fun hs (kv : String × String) => headersAppend hs kv.1 kv.2) []

/-- `Headers.set`: lowercase the name; replace an existing entry's value,
else insert in sorted position. -/
def headersSet (hs : List (String × String)) (name value : String) : List (String × String) :=
  let k := lowerStr name
  match hs with
  | [] => [(k, value)]
  | (k', v') :: rest =>
    if k' == k then (k', value) :: rest
    else if strLtB k k' then (k, value) :: (k', v') :: rest
    else (k', v') :: headersSet rest name value

/-- `Headers.delete` (names in the list are already lowercase). -/
def headersDelete (hs : List (String × String)) (name : String) : List (String × String) :=
  hs.filter (fun kv => !(kv.1 == lowerStr name))

/-- Membership check up to lowercasing, i.e. `Headers.has`. -/
def headersHas (hs : List (String × String)) (name : String) : Bool :=
  hs.any (fun kv => kv.1 == lowerStr name)

def headersGet (hs : List (String × String)) (name : String) : Option String :=
  (hs.find? (fun kv => kv.1 == lowerStr name)).map (·.2)

def startsWithSec : List Char → Bool
  | 's' :: 'e' :: 'c' :: '-' :: _ => true
  | _ => false

/-- The deny test of src/index.ts lines 76-77: the lowercased name is in
`NonProxyHeaders` or begins with `sec-`. -/
def isDeniedName (k : String) : Bool :=
  NonProxyHeaders.contains (lowerStr k) || startsWithSec (lowerStr k).data

/-- The `headers.forEach(... headers.delete(key) ...)` loop of src/index.ts
lines 75-80, with the WHATWG WebIDL pair-iterator semantics: each step
re-reads the object's current (sorted) value-pair list, visits the pair at
the running index, and increments the index regardless of mutation — so
deleting the visited entry shifts its successor into the visited slot and
the iteration skips it. `fuel` bounds the step count (the list never
grows, so the initial length suffices). -/
def pruneLoop (fuel : Nat) (hs : List (String × String)) (i : Nat) : List (String × String) :=
  match fuel with
  | 0 => hs
  | fuel + 1 =>
    match hs.get? i with
    | none => hs
    | some (k, _) =>
      let hs' := if isDeniedName k then headersDelete hs k else hs
      pruneLoop fuel hs' (i + 1)

/-- Header assembly of src/index.ts lines 68-80: start from the Request's
headers when the input is a Request, else from `init`'s; set the source and
token headers; run the deny-list removal loop. The modeled environment is
non-browser (`typeof window === 'undefined'`), so no Origin header is set. -/
def assembleHeaders (input : RequestInput) (init : Option (List (String × String)))
    (token : String) : List (String × String) :=
  let base := match input with
    | .request r => r.headers
    | _ => init.getD []
  let hs := headersFromPairs base
  let hs := headersSet hs HeaderSource0 SourceName
  let hs := headersSet hs HeaderToken0 token
  pruneLoop hs.length hs 0

/-! ## Request-options assembly (src/index.ts lines 83-90) -/

/-- The `RequestInit` overlay, restricted to the fields the code reads plus
two representative passthrough fields. `none` models an absent key (the
object-spread in the source copies only keys that are present). -/
structure RequestInitModel where
  method : Option String := none
  body : Option String := none
  redirect : Option String := none
  headers : Option (List (String × String)) := none
  cache : Option String := none
  signal : Option String := none
  deriving DecidableEq, Repr

/-- The assembled second argument of the transport call. -/
structure OutgoingReq where
  method : Option String
  body : Option String
  redirect : Option String
  cache : Option String
  signal : Option String
  headers : List (String × String)
  deriving DecidableEq, Repr

/-- Embedding of the object literal of src/index.ts lines 84-90: the
method/body/redirect fields are first computed from the Request input (else
from `init`), then `...restInit` — `init` minus `headers` — is spread OVER
them, so any such key present in `init` wins; the filtered header set is
written last and always wins. -/
def assembleRequest (input : RequestInput) (init : Option RequestInitModel)
    (headers : List (String × String)) : OutgoingReq :=
  let i := init.getD {}
  let baseMethod := match input with
    | .request r => some r.method
    | _ => i.method
  let baseBody := match input with
    | .request r => r.body
    | _ => i.body
  let baseRedirect := match input with
    | .request r => some r.redirect
    | _ => i.redirect
  { method := match i.method with
      | some m => some m
      | none => baseMethod
    body := match i.body with
      | some b => some b
      | none => baseBody
    redirect := match i.redirect with
      | some r => some r
      | none => baseRedirect
    cache := i.cache
    signal := i.signal
    headers := headers }

/-! ## Dispatch & retry loop (src/index.ts lines 92-112) -/

/-- A transport response to the proxied call: the two proxy headers, the
transport-level success flag and status (which the loop never reads), and an
identity tag to distinguish concrete responses. -/
structure ProxyResp where
  proxyError : Option String
  proxyStatus : Option String
  ok : Bool
  status : Nat
  id : Nat
  deriving DecidableEq, Repr

/-- JS template rendering of a nullable header value (`null` prints as
`"null"`). -/
def jsStr : Option String → String
  | none => "null"
  | some s => s

/-- The `status: {proxyStatus} {proxyError}` message of line 104. -/
def proxyErrorMessage (proxyStatus : Option String) (errText : String) : String :=
  "status: " ++ jsStr proxyStatus ++ " " ++ errText

/-- Embedding of the bounded retry loop. The source's `if (proxyError)` at
line 98 is a JS truthiness test on a `string | null` value: both a missing
`gg-x-error` header (`null`, here `none`) and a present one with an empty
value (`""`, here `some ""`) are falsy, and the response is returned as-is.
Only a non-empty error text takes the error path: retry once after the
fixed delay when this is the first attempt, retrying is on, the outgoing
method is `GET` and `gg-x-status` is `"502"`, and fail with the proxy error
message in every other case. The second component counts transport
invocations. -/
def dispatchLoop (retry : Bool) (method : Option String) (resp0 resp1 : ProxyResp) :
    Except BridggyError ProxyResp × Nat :=
  match resp0.proxyError with
  | none => (.ok resp0, 1)
  | some err0 =>
    if err0 = "" then (.ok resp0, 1)
    else if retry && method == some "GET" && resp0.proxyStatus == some "502" then
      match resp1.proxyError with
      | none => (.ok resp1, 2)
      | some err1 =>
        if err1 = "" then (.ok resp1, 2)
        else (.error (.proxyError (proxyErrorMessage resp1.proxyStatus err1)), 2)
    else
      (.error (.proxyError (proxyErrorMessage resp0.proxyStatus err0)), 1)

/-! ## The full `fetch` pipeline -/

/-- The proxy URL of src/index.ts line 65, given the rendered scope claim
and the encoded destination. -/
def mkProxyUrl (scope enc : String) : String :=
  "https://" ++ scope ++ ".bridggy.com/proxy?u=" ++ enc

/-! ## `b64urlEncode` (src/index.ts lines 195-200) and its reverse -/

/-- Model of `TextEncoder.encode` on one scalar value: the UTF-8 bytes. -/
def utf8EncodeChar (n : Nat) : List Nat :=
  if n < 0x80 then [n]
  else if n < 0x800 then [0xC0 + n / 64, 0x80 + n % 64]
  else if n < 0x10000 then [0xE0 + n / 4096, 0x80 + n / 64 % 64, 0x80 + n % 64]
  else [0xF0 + n / 262144, 0x80 + n / 4096 % 64, 0x80 + n / 64 % 64, 0x80 + n % 64]

def utf8EncodeList : List Char → List Nat
  | [] => []
  | c :: cs => utf8EncodeChar c.toNat ++ utf8EncodeList cs

/-- Model of `TextEncoder.encode`: the UTF-8 byte sequence of the string. -/
def utf8Encode (s : String) : List Nat :=
  utf8EncodeList s.data

/-- Model of `btoa` on a byte list (the source builds the binary string from
the UTF-8 bytes one `String.fromCharCode` at a time): standard base64 with
`'='` padding. -/
def btoaBytes : List Nat → List Char
  | [] => []
  | [b0] => [sextetChar (b0 / 4), sextetChar (b0 % 4 * 16), '=', '=']
  | [b0, b1] => [sextetChar (b0 / 4), sextetChar (b0 % 4 * 16 + b1 / 16),
                 sextetChar (b1 % 16 * 4), '=']
  | b0 :: b1 :: b2 :: rest =>
    sextetChar (b0 / 4) :: sextetChar (b0 % 4 * 16 + b1 / 16) ::
    sextetChar (b1 % 16 * 4 + b2 / 64) :: sextetChar (b2 % 64) :: btoaBytes rest

/-- One URL-safe substitution: plus to dash, forward slash to underscore. -/
def stdToUrlChar (c : Char) : Char :=
  if c == '+' then '-' else if c == '/' then '_' else c

/-- The global substitutions of line 199: `'+'` to `'-'` and `'/'` to `'_'`. -/
def stdToUrl (cs : List Char) : List Char :=
  cs.map stdToUrlChar

/-- The trailing-`'='` strip of line 199 (a `=+$` regex replace). -/
def stripTrailingEq (cs : List Char) : List Char :=
  cs.foldr (fun c acc => if c == '=' && acc.isEmpty then [] else c :: acc) []

/-- Embedding of `Bridggy.b64urlEncode`: UTF-8 encode, `btoa`, URL-safe
substitutions, strip the padding. -/
def b64urlEncode (s : String) : String :=
  String.mk (stripTrailingEq (stdToUrl (btoaBytes (utf8Encode s))))

/-- Fuel-indexed UTF-8 decoder (each step consumes at least one byte, so
the byte count is sufficient fuel). Rejects continuation-byte leads,
overlong forms and out-of-range code points. -/
def utf8DecodeList : Nat → List Nat → Option (List Char)
  | _, [] => some []
  | 0, _ :: _ => none
  | fuel + 1, b0 :: rest =>
    if b0 < 0x80 then
      (utf8DecodeList fuel rest).map (Char.ofNat b0 :: ·)
    else if b0 < 0xC2 then none
    else if b0 < 0xE0 then
      match rest with
      | b1 :: rest2 =>
        if 0x80 ≤ b1 ∧ b1 < 0xC0 then
          (utf8DecodeList fuel rest2).map (Char.ofNat ((b0 - 0xC0) * 64 + (b1 - 0x80)) :: ·)
        else none
      | [] => none
    else if b0 < 0xF0 then
      match rest with
      | b1 :: b2 :: rest3 =>
        if (0x80 ≤ b1 ∧ b1 < 0xC0) ∧ (0x80 ≤ b2 ∧ b2 < 0xC0) then
          let cp := (b0 - 0xE0) * 4096 + (b1 - 0x80) * 64 + (b2 - 0x80)
          if 0x800 ≤ cp then (utf8DecodeList fuel rest3).map (Char.ofNat cp :: ·) else none
        else none
      | _ => none
    else if b0 < 0xF5 then
      match rest with
      | b1 :: b2 :: b3 :: rest4 =>
        if ((0x80 ≤ b1 ∧ b1 < 0xC0) ∧ (0x80 ≤ b2 ∧ b2 < 0xC0)) ∧ (0x80 ≤ b3 ∧ b3 < 0xC0) then
          let cp := (b0 - 0xF0) * 262144 + (b1 - 0x80) * 4096 + (b2 - 0x80) * 64 + (b3 - 0x80)
          if 0x10000 ≤ cp ∧ cp < 0x110000 then
            (utf8DecodeList fuel rest4).map (Char.ofNat cp :: ·)
          else none
        else none
      | _ => none
    else none

/-- Modelled from the spec: the reverse of the URL-safe base64 transform —
undo the substitutions, restore `'='` padding, standard-base64 decode
(`atob`), and read the bytes back as UTF-8. -/
def b64urlDecode (s : String) : Option String :=
  let restored := b64urlToStd s.data
  let padded := restored ++ List.replicate ((4 - restored.length % 4) % 4) '='
  match atobModel (String.mk padded) with
  | none => none
  | some bytes => (utf8DecodeList bytes.length bytes).map String.mk

/-! ## `fetch` (src/index.ts lines 57-113) -/

/-- The environment a single `fetch` call runs against: the current time,
the exchange endpoint's response (used only if an exchange happens) and the
transport's response to each of the at most two proxied dispatch attempts. -/
structure FetchEnv where
  now : Nat
  exchangeResp : ExchangeResp
  resp0 : ProxyResp
  resp1 : ProxyResp
  deriving DecidableEq, Repr

/-- Everything observable about one `fetch` call: its result, the state it
leaves behind, the exchange requests it sent, the proxied request it
dispatched (with the proxy URL), and how often the transport was invoked
for the proxied call. -/
structure FetchOutcome where
  result : Except BridggyError ProxyResp
  finalState : State
  exchangeSent : List SentRequest
  dispatched : Option (String × OutgoingReq)
  dispatchCount : Nat
  deriving Repr

def FetchOutcome.abort (st : State) (e : BridggyError) (sent : List SentRequest) :
    FetchOutcome :=
  { result := .error e, finalState := st, exchangeSent := sent,
    dispatched := none, dispatchCount := 0 }

/-- Embedding of `Bridggy.fetch`: the configured guard, the freshness check
and conditional exchange, input normalization, proxy-URL construction from
the access credential's `scope` claim, header assembly, request assembly,
and the dispatch/retry loop. -/
def fetchModel (st : State) (input : RequestInput) (init : Option RequestInitModel)
    (env : FetchEnv) : FetchOutcome :=
  if st.proxyToken = "" then .abort st .notConfigured []
  else
    match isTokenExpired st env.now with
    | .error e => .abort st e []
    | .ok expired =>
      let exchanged :=
        if expired then exchange st env.now env.exchangeResp else (.ok st, [])
      match exchanged with
      | (.error e, sent) => .abort st e sent
      | (.ok st', sent) =>
        match getUrl input with
        | .error e => .abort st' e sent
        | .ok url =>
          match getTokenPayload st'.token with
          | .error e => .abort st' e sent
          | .ok payload =>
            let proxyUrl := mkProxyUrl (jsToString (jGet payload "scope")) (b64urlEncode url.href)
            let headers := assembleHeaders input (init.bind (·.headers)) st'.token
            let req := assembleRequest input init headers
            let (res, n) := dispatchLoop st'.retry req.method env.resp0 env.resp1
            { result := res, finalState := st', exchangeSent := sent,
              dispatched := some (proxyUrl, req), dispatchCount := n }

/-! ## Proof-support definitions -/

/-- The sextet stream of a byte list (the combinatorial core of base64
encoding, used to relate `btoaBytes` to the decoding side). -/
def byteSextets : List Nat → List Nat
  | [] => []
  | [b0] => [b0 / 4, b0 % 4 * 16]
  | [b0, b1] => [b0 / 4, b0 % 4 * 16 + b1 / 16, b1 % 16 * 4]
  | b0 :: b1 :: b2 :: rest =>
    (b0 / 4) :: (b0 % 4 * 16 + b1 / 16) :: (b1 % 16 * 4 + b2 / 64) :: (b2 % 64) :: byteSextets rest

/-- The numeric `exp` claim of a decoded payload, when present. -/
def expClaim (p : JValue) : Option Int :=
  match jGet p "exp" with
  | some (.num e) => some e
  | _ => none

/-- Whether a fetch input is a Request object. -/
def RequestInput.isReq : RequestInput → Bool
  | .request _ => true
  | _ => false

/-! # Theorems -/

/-- C8: for every call to fetch made before configure has set a long-lived
credential, fetch fails with the NotConfigured error immediately, and no
network call (neither an exchange nor a proxied dispatch) is performed. -/
theorem fetch_before_configure_fails (st : State) (input : RequestInput)
    (init : Option RequestInitModel) (env : FetchEnv) (h : st.proxyToken = "") :
    (fetchModel st input init env).result = .error .notConfigured ∧
    (fetchModel st input init env).exchangeSent = [] ∧
    (fetchModel st input init env).dispatched = none ∧
    (fetchModel st input init env).dispatchCount = 0 := by
  simp [fetchModel, h, FetchOutcome.abort]

/-- Witness for C8 at a fresh (never configured) client state. -/
theorem fetch_before_configure_fails_witness :
    ({} : State).proxyToken = "" ∧
    (fetchModel {} (.str "https://api.example.com/data") none
      ⟨0, ⟨true, 200, "t"⟩, ⟨none, none, true, 200, 0⟩, ⟨none, none, true, 200, 1⟩⟩).result
      = .error .notConfigured :=
  ⟨rfl, (fetch_before_configure_fails {} (.str "https://api.example.com/data") none
      ⟨0, ⟨true, 200, "t"⟩, ⟨none, none, true, 200, 0⟩, ⟨none, none, true, 200, 1⟩⟩ rfl).1⟩

/-- C10: configuring with an empty string as the long-lived credential
leaves the falsiness guard failing, so a subsequent fetch still fails with
NotConfigured before any network call — the configured precondition is a
non-empty stored credential, not merely that configure was invoked. -/
theorem fetch_after_empty_configure_fails (st : State) (c : Config)
    (input : RequestInput) (init : Option RequestInitModel) (env : FetchEnv)
    (h : c.token = "") :
    (fetchModel (configure st c) input init env).result = .error .notConfigured ∧
    (fetchModel (configure st c) input init env).exchangeSent = [] ∧
    (fetchModel (configure st c) input init env).dispatched = none ∧
    (fetchModel (configure st c) input init env).dispatchCount = 0 := by
  simp [fetchModel, configure, h, FetchOutcome.abort]

/-- Witness for C10: configure with the empty credential, then fetch. -/
theorem fetch_after_empty_configure_fails_witness :
    (fetchModel (configure {} { token := "" }) (.str "https://api.example.com/data") none
      ⟨0, ⟨true, 200, "t"⟩, ⟨none, none, true, 200, 0⟩, ⟨none, none, true, 200, 1⟩⟩).result
      = .error .notConfigured :=
  (fetch_after_empty_configure_fails {} { token := "" } (.str "https://api.example.com/data")
    none ⟨0, ⟨true, 200, "t"⟩, ⟨none, none, true, 200, 0⟩, ⟨none, none, true, 200, 1⟩⟩ rfl).1

/-- C9: input normalization resolves the input to an absolute URL: a string
that is not a valid absolute URL fails with an InvalidInput error whose
message names the offending string; a URL value is used directly; a Request
contributes its own URL; any other input shape fails with the
UnsupportedInputType error. -/
theorem getUrl_spec (s : String) (u : UrlObj) (r : RequestObj) :
    (urlParse s = none →
      getUrl (.str s) = .error (.invalidInput s) ∧
      invalidInputMessage s = "input string must be an absolute URL, got \"" ++ s ++ "\"") ∧
    (∀ u', urlParse s = some u' → getUrl (.str s) = .ok u') ∧
    getUrl (.url u) = .ok u ∧
    (∀ u', urlParse r.url = some u' → getUrl (.request r) = .ok u') ∧
    getUrl .other = .error .unsupportedInputType := by
  refine ⟨fun h => ⟨?_, rfl⟩, fun u' h => ?_, rfl, fun u' h => ?_, rfl⟩ <;>
    simp [getUrl, h]

/-- Witness for C9: a malformed string input and a well-formed one. -/
theorem getUrl_spec_witness :
    urlParse "not a url" = none ∧
    getUrl (.str "not a url") = .error (.invalidInput "not a url") ∧
    urlParse "https://api.example.com/data" = some ⟨"https://api.example.com/data"⟩ ∧
    getUrl (.str "https://api.example.com/data") = .ok ⟨"https://api.example.com/data"⟩ :=
  ⟨by decide,
   ((getUrl_spec "not a url" ⟨""⟩ ⟨"", "", [], none, ""⟩).1 (by decide)).1,
   by decide,
   (getUrl_spec "https://api.example.com/data" ⟨""⟩ ⟨"", "", [], none, ""⟩).2.1
     ⟨"https://api.example.com/data"⟩ (by decide)⟩

/-- C5, counterexample: the claim says that for a request-description input
the outgoing method is taken from that object, not from init; but the
source spreads `...restInit` after the method/body/redirect fields, so an
init carrying `method: 'PUT'` overrides a Request whose method is `POST`. -/
theorem assembleRequest_claim_counterexample :
    (assembleRequest (.request ⟨"https://a.b/c", "POST", [], some "B", "follow"⟩)
        (some { method := some "PUT" }) []).method = some "PUT" ∧
    some "PUT" ≠ some "POST" := by
  exact ⟨rfl, by decide⟩

/-- C5 (amended): when assembling the outgoing request options, the method,
body and redirect policy are taken from `init` whenever `init` itself
carries that field, and otherwise from the request-description input when
the input is one (else they remain `init`'s, i.e. absent); all other
caller-supplied fields of `init` are passed through; and the filtered
header set from header assembly overrides any headers field carried in
`init`. -/
theorem assembleRequest_spec (input : RequestInput) (init : Option RequestInitModel)
    (hs : List (String × String)) :
    (∀ r, input = .request r →
      (assembleRequest input init hs).method = some ((init.getD {}).method.getD r.method) ∧
      (assembleRequest input init hs).body =
        (match (init.getD {}).body with
          | some b => some b
          | none => r.body) ∧
      (assembleRequest input init hs).redirect =
        some ((init.getD {}).redirect.getD r.redirect)) ∧
    (input.isReq = false →
      (assembleRequest input init hs).method = (init.getD {}).method ∧
      (assembleRequest input init hs).body = (init.getD {}).body ∧
      (assembleRequest input init hs).redirect = (init.getD {}).redirect) ∧
    (assembleRequest input init hs).cache = (init.getD {}).cache ∧
    (assembleRequest input init hs).signal = (init.getD {}).signal ∧
    (assembleRequest input init hs).headers = hs := by
  refine ⟨fun r hr => ?_, fun hnr => ?_, rfl, rfl, rfl⟩
  · subst hr
    refine ⟨?_, ?_, ?_⟩
    · cases hm : (init.getD {}).method <;> simp [assembleRequest, hm]
    · cases hb : (init.getD {}).body <;> simp [assembleRequest, hb]
    · cases hd : (init.getD {}).redirect <;> simp [assembleRequest, hd]
  · cases input with
    | request r => simp [RequestInput.isReq] at hnr
    | str s =>
      refine ⟨?_, ?_, ?_⟩
      · cases hm : (init.getD {}).method <;> simp [assembleRequest, hm]
      · cases hb : (init.getD {}).body <;> simp [assembleRequest, hb]
      · cases hd : (init.getD {}).redirect <;> simp [assembleRequest, hd]
    | url u =>
      refine ⟨?_, ?_, ?_⟩
      · cases hm : (init.getD {}).method <;> simp [assembleRequest, hm]
      · cases hb : (init.getD {}).body <;> simp [assembleRequest, hb]
      · cases hd : (init.getD {}).redirect <;> simp [assembleRequest, hd]
    | other =>
      refine ⟨?_, ?_, ?_⟩
      · cases hm : (init.getD {}).method <;> simp [assembleRequest, hm]
      · cases hb : (init.getD {}).body <;> simp [assembleRequest, hb]
      · cases hd : (init.getD {}).redirect <;> simp [assembleRequest, hd]

/-- Witness for C5 (amended): a Request input with an init that carries a
method and a passthrough cache field. -/
theorem assembleRequest_spec_witness :
    (assembleRequest (.request ⟨"https://a.b/c", "POST", [], some "B", "follow"⟩)
        (some { method := some "PUT", cache := some "no-store" })
        [("gg-x-source", "client")]).method = some "PUT" ∧
    (assembleRequest (.request ⟨"https://a.b/c", "POST", [], some "B", "follow"⟩)
        (some { method := some "PUT", cache := some "no-store" })
        [("gg-x-source", "client")]).headers = [("gg-x-source", "client")] :=
  ⟨((assembleRequest_spec (.request ⟨"https://a.b/c", "POST", [], some "B", "follow"⟩)
      (some { method := some "PUT", cache := some "no-store" })
      [("gg-x-source", "client")]).1 ⟨"https://a.b/c", "POST", [], some "B", "follow"⟩ rfl).1,
   (assembleRequest_spec (.request ⟨"https://a.b/c", "POST", [], some "B", "follow"⟩)
      (some { method := some "PUT", cache := some "no-store" })
      [("gg-x-source", "client")]).2.2.2.2⟩

/-- C3, evaluated at the failing input: two deny-listed headers adjacent in
the sorted iteration order (`connection`, `cookie`). Deleting `connection`
during the `forEach` shifts `cookie` into the already-visited slot, so the
WebIDL pair-iterator skips it and `cookie` survives the removal loop, while
the claim requires every deny-listed header to be absent. The injected
source/token headers and the custom header behave as claimed. -/
theorem assembleHeaders_skips_adjacent_denied :
    assembleHeaders (.str "https://api.example.com/data")
        (some [("Connection", "keep-alive"), ("Cookie", "a=1"), ("X-Custom", "v")]) "tok"
      = [("cookie", "a=1"), ("gg-x-source", "client"), ("gg-x-token", "tok"),
         ("x-custom", "v")] ∧
    isDeniedName "cookie" = true := by
  exact ⟨rfl, rfl⟩

/-- C2, counterexample: the claim keys the error path on the *presence* of
the proxy-error header, but the source's `if (proxyError)` (line 98) is a
JS truthiness test, and a present `gg-x-error` header with an empty value
is falsy. A POST response carrying an empty-valued `gg-x-error` and
proxy-status "502" is returned as-is after one transport invocation, where
the claim (not the retry case, header present) demands a ProxyError
failure. -/
theorem dispatchLoop_claim_counterexample :
    dispatchLoop true (some "POST") ⟨some "", some "502", false, 502, 0⟩
        ⟨none, none, true, 200, 1⟩
      = (.ok ⟨some "", some "502", false, 502, 0⟩, 1) := by
  rfl

/-- C2 (amended): a response whose proxy-error header is absent or carries
the empty string (both falsy under the code's truthiness test) is returned
as-is regardless of its transport-level HTTP status; with a non-empty
proxy-error value present, the loop retries exactly once (after the fixed
delay) if and only if this is the first attempt, the retry flag is on, the
outgoing method is GET and the proxy-status header is "502"; every other
error case fails with a ProxyError whose message is exactly
`status: {proxyStatus} {proxyErrorText}` of the failing response; and the
transport is invoked at most twice. -/
theorem dispatchLoop_spec (retry : Bool) (method : Option String) (r0 r1 : ProxyResp) :
    (r0.proxyError = none ∨ r0.proxyError = some "" →
      dispatchLoop retry method r0 r1 = (.ok r0, 1)) ∧
    ((dispatchLoop retry method r0 r1).2 = 2 ↔
      r0.proxyError ≠ none ∧ r0.proxyError ≠ some "" ∧ retry = true ∧
        method = some "GET" ∧ r0.proxyStatus = some "502") ∧
    (∀ e0, r0.proxyError = some e0 → e0 ≠ "" →
      ¬(retry = true ∧ method = some "GET" ∧ r0.proxyStatus = some "502") →
      dispatchLoop retry method r0 r1 =
        (.error (.proxyError (proxyErrorMessage r0.proxyStatus e0)), 1)) ∧
    (∀ e0, r0.proxyError = some e0 → e0 ≠ "" → retry = true → method = some "GET" →
      r0.proxyStatus = some "502" → r1.proxyError = none ∨ r1.proxyError = some "" →
      dispatchLoop retry method r0 r1 = (.ok r1, 2)) ∧
    (∀ e0 e1, r0.proxyError = some e0 → e0 ≠ "" → retry = true → method = some "GET" →
      r0.proxyStatus = some "502" → r1.proxyError = some e1 → e1 ≠ "" →
      dispatchLoop retry method r0 r1 =
        (.error (.proxyError (proxyErrorMessage r1.proxyStatus e1)), 2)) ∧
    (dispatchLoop retry method r0 r1).2 ≤ 2 := by
  have hcond_iff : (retry && method == some "GET" && r0.proxyStatus == some "502") = true ↔
      (retry = true ∧ method = some "GET" ∧ r0.proxyStatus = some "502") := by
    simp [Bool.and_eq_true, and_assoc]
  cases hr0 : r0.proxyError with
  | none =>
    refine ⟨fun _ => by simp [dispatchLoop, hr0], by simp [dispatchLoop, hr0],
      fun e0 h => absurd h (by simp [hr0]),
      fun e0 h => absurd h (by simp [hr0]),
      fun e0 e1 h => absurd h (by simp [hr0]),
      by simp [dispatchLoop, hr0]⟩
  | some e0 =>
    by_cases he0 : e0 = ""
    · subst he0
      refine ⟨fun _ => by simp [dispatchLoop, hr0], by simp [dispatchLoop, hr0],
        ?_, ?_, ?_, by simp [dispatchLoop, hr0]⟩
      · intro e0' h0 hne _
        cases h0
        exact absurd rfl hne
      · intro e0' h0 hne _ _ _ _
        cases h0
        exact absurd rfl hne
      · intro e0' e1' h0 hne _ _ _ _ _
        cases h0
        exact absurd rfl hne
    · by_cases hc : retry = true ∧ method = some "GET" ∧ r0.proxyStatus = some "502"
      · have hb : (retry && method == some "GET" && r0.proxyStatus == some "502") = true :=
          hcond_iff.mpr hc
        obtain ⟨h1c, h2c, h3c⟩ := hc
        refine ⟨?_, ?_, ?_, ?_, ?_, ?_⟩
        · rintro (h | h)
          · exact Option.noConfusion h
          · cases h
            exact absurd rfl he0
        · cases hr1 : r1.proxyError with
          | none => simp [dispatchLoop, hr0, he0, hb, hr1, h1c, h2c, h3c]
          | some e1 =>
            by_cases he1 : e1 = "" <;>
              simp [dispatchLoop, hr0, he0, hb, hr1, he1, h1c, h2c, h3c]
        · intro e0' h0 hne hneg
          exact absurd ⟨h1c, h2c, h3c⟩ hneg
        · intro e0' h0 hne _ _ _ hr1
          cases h0
          rcases hr1 with hr1 | hr1 <;> simp [dispatchLoop, hr0, he0, hb, hr1]
        · intro e0' e1' h0 hne _ _ _ hr1 hne1
          cases h0
          simp [dispatchLoop, hr0, he0, hb, hr1, hne1]
        · cases hr1 : r1.proxyError with
          | none => simp [dispatchLoop, hr0, he0, hb, hr1]
          | some e1 =>
            by_cases he1 : e1 = "" <;> simp [dispatchLoop, hr0, he0, hb, hr1, he1]
      · have hb : (retry && method == some "GET" && r0.proxyStatus == some "502") = false := by
          rcases h : (retry && method == some "GET" && r0.proxyStatus == some "502") with _ | _
          · rfl
          · exact absurd (hcond_iff.mp h) hc
        refine ⟨?_, ?_, ?_, ?_, ?_, ?_⟩
        · rintro (h | h)
          · exact Option.noConfusion h
          · cases h
            exact absurd rfl he0
        · constructor
          · intro h2
            simp [dispatchLoop, hr0, he0, hb] at h2
          · rintro ⟨_, _, hrest⟩
            exact absurd hrest hc
        · intro e0' h0 hne _
          cases h0
          simp [dispatchLoop, hr0, he0, hb]
        · intro e0' h0 hne hr hm hs _
          exact absurd ⟨hr, hm, hs⟩ hc
        · intro e0' e1' h0 hne hr hm hs _ _
          exact absurd ⟨hr, hm, hs⟩ hc
        · simp [dispatchLoop, hr0, he0, hb]

/-- Witness for C2 (amended): a GET with retry enabled against a non-empty
502 proxy error is retried once and returns the second response; the count
is 2. -/
theorem dispatchLoop_spec_witness :
    dispatchLoop true (some "GET") ⟨some "Bad Gateway", some "502", false, 502, 0⟩
        ⟨none, none, true, 200, 1⟩ = (.ok ⟨none, none, true, 200, 1⟩, 2) :=
  (dispatchLoop_spec true (some "GET") ⟨some "Bad Gateway", some "502", false, 502, 0⟩
      ⟨none, none, true, 200, 1⟩).2.2.2.1 "Bad Gateway" rfl (by decide) rfl rfl rfl
    (Or.inl rfl)

/-- A list without `'.'` splits into the single whole segment. -/
theorem splitDot_eq_single (l : List Char) (h : '.' ∉ l) : splitDot l = [l] := by
  induction l with
  | nil => rfl
  | cons c rest ih =>
    have hc : ¬(c = '.') := fun hc => h (by simp [hc])
    have hr : '.' ∉ rest := fun hm => h (List.mem_cons_of_mem _ hm)
    simp [splitDot, hc, ih hr]

/-- C7: the claims decoder splits on `.` and takes the second segment,
failing with the InvalidTokenFormat error when that segment is absent
(in particular for every token with no `.` separator); it applies URL-safe
base64 decoding and JSON-parses the result, failing with a token-format
error when decoding or parsing fails; a successful result certifies that
every stage succeeded (never partial claims); and every failure it raises
is of the token-format family. -/
theorem getTokenPayload_spec (token : String) :
    (token.data.count '.' = 0 → getTokenPayload token = .error .invalidToken) ∧
    ((splitDot token.data)[1]? = none → getTokenPayload token = .error .invalidToken) ∧
    (∀ seg, (splitDot token.data)[1]? = some seg → seg = [] →
      getTokenPayload token = .error .invalidToken) ∧
    (∀ seg, (splitDot token.data)[1]? = some seg → seg ≠ [] →
      atobModel (String.mk (b64urlToStd seg)) = none →
      getTokenPayload token = .error .atobError) ∧
    (∀ seg bytes, (splitDot token.data)[1]? = some seg → seg ≠ [] →
      atobModel (String.mk (b64urlToStd seg)) = some bytes →
      parseJson (String.mk (bytes.map Char.ofNat)) = none →
      getTokenPayload token = .error .jsonError) ∧
    (∀ v, getTokenPayload token = .ok v →
      ∃ seg bytes, (splitDot token.data)[1]? = some seg ∧ seg ≠ [] ∧
        atobModel (String.mk (b64urlToStd seg)) = some bytes ∧
        parseJson (String.mk (bytes.map Char.ofNat)) = some v) ∧
    (∀ e, getTokenPayload token = .error e → isTokenFormatError e = true) := by
  refine ⟨?_, ?_, ?_, ?_, ?_, ?_, ?_⟩
  · intro h
    have hnot : '.' ∉ token.data := by
      simpa using List.count_eq_zero.mp h
    simp [getTokenPayload, splitDot_eq_single token.data hnot]
  · intro h
    simp [getTokenPayload, h]
  · intro seg hseg hemp
    simp [getTokenPayload, hseg, hemp]
  · intro seg hseg hemp hatob
    simp [getTokenPayload, hseg, hemp, hatob]
  · intro seg bytes hseg hemp hatob hjson
    simp [getTokenPayload, hseg, hemp, hatob, hjson]
  · intro v hv
    unfold getTokenPayload at hv
    cases hseg : (splitDot token.data)[1]? with
    | none => rw [hseg] at hv; exact Except.noConfusion hv
    | some seg =>
      simp only [hseg] at hv
      by_cases hemp : seg = []
      · rw [if_pos hemp] at hv; exact Except.noConfusion hv
      · rw [if_neg hemp] at hv
        cases hatob : atobModel (String.mk (b64urlToStd seg)) with
        | none => simp only [hatob] at hv; exact Except.noConfusion hv
        | some bytes =>
          simp only [hatob] at hv
          cases hjson : parseJson (String.mk (bytes.map Char.ofNat)) with
          | none => simp only [hjson] at hv; exact Except.noConfusion hv
          | some v' =>
            simp only [hjson] at hv
            cases hv
            exact ⟨seg, bytes, rfl, hemp, hatob, hjson⟩
  · intro e he
    unfold getTokenPayload at he
    cases hseg : (splitDot token.data)[1]? with
    | none => rw [hseg] at he; cases he; rfl
    | some seg =>
      simp only [hseg] at he
      by_cases hemp : seg = []
      · rw [if_pos hemp] at he; cases he; rfl
      · rw [if_neg hemp] at he
        cases hatob : atobModel (String.mk (b64urlToStd seg)) with
        | none => simp only [hatob] at he; cases he; rfl
        | some bytes =>
          simp only [hatob] at he
          cases hjson : parseJson (String.mk (bytes.map Char.ofNat)) with
          | none => simp only [hjson] at he; cases he; rfl
          | some v' => simp only [hjson] at he; exact Except.noConfusion he

/-- Witness for C7: a token with no `.` fails as absent-segment; a token
whose middle segment decodes but is not JSON fails as a parse error. -/
theorem getTokenPayload_spec_witness :
    getTokenPayload "abc" = .error .invalidToken ∧
    getTokenPayload "a.YWJj.c" = .error .jsonError :=
  ⟨(getTokenPayload_spec "abc").1 (by decide),
   (getTokenPayload_spec "a.YWJj.c").2.2.2.2.1 ['Y', 'W', 'J', 'j'] [97, 98, 99]
     (by decide) (by decide) (by decide) (by rfl)⟩

/-- C1, counterexample: at the exact boundary `now = exp·1000 − 60000` the
code's strict `>` comparison reports not-expired while the claim's `≥`
requires expired. Concrete input: a held token whose payload decodes to an
`exp` claim of 61 and `now = 1000` ms. -/
theorem isTokenExpired_claim_counterexample :
    getTokenPayload "e30.eyJleHAiOjYxfQ.s" = .ok (.obj [("exp", .num 61)]) ∧
    isTokenExpired { proxyToken := "p", token := "e30.eyJleHAiOjYxfQ.s" } 1000 = .ok false ∧
    ((1000 : Int) ≥ 61 * 1000 - 60000) := by
  exact ⟨rfl, rfl, by decide⟩

/-- C1 (amended): if no access credential is held the expiry check reports
expired (true) without error; if a credential is held but its decoded `exp`
claim is missing or not numeric it fails with the InvalidOrMalformedToken
error rather than reporting expired; otherwise it returns true if and only
if the current time is strictly greater than (`exp` in milliseconds minus
60000 ms) — in particular, for every token with `exp` at most now + 30 s it
returns true, and for `exp` = now + 3600 s it returns false. -/
theorem isTokenExpired_spec (st : State) (now : Nat) :
    (st.token = "" → isTokenExpired st now = .ok true) ∧
    (∀ p, st.token ≠ "" → getTokenPayload st.token = .ok p → expClaim p = none →
      isTokenExpired st now = .error .invalidOrMalformedToken) ∧
    (∀ p e, st.token ≠ "" → getTokenPayload st.token = .ok p → expClaim p = some e →
      (isTokenExpired st now = .ok true ↔ (now : Int) > e * 1000 - 60000) ∧
      (e * 1000 ≤ (now : Int) + 30000 → isTokenExpired st now = .ok true) ∧
      (e * 1000 = (now : Int) + 3600000 → isTokenExpired st now = .ok false)) := by
  refine ⟨fun h => by simp [isTokenExpired, h], ?_, ?_⟩
  · intro p hne hp hexp
    unfold expClaim at hexp
    unfold isTokenExpired
    rw [if_neg hne]
    simp only [hp]
    cases hj : jGet p "exp" with
    | none => rfl
    | some v =>
      cases v with
      | num e => rw [hj] at hexp; exact Option.noConfusion hexp
      | null => rfl
      | bool b => rfl
      | str s => rfl
      | arr es => rfl
      | obj fs => rfl
  · intro p e hne hp hexp
    unfold expClaim at hexp
    have hj : jGet p "exp" = some (.num e) := by
      cases hj : jGet p "exp" with
      | none => rw [hj] at hexp; exact Option.noConfusion hexp
      | some v =>
        cases v with
        | num e' =>
          rw [hj] at hexp
          cases hexp
          rfl
        | null => rw [hj] at hexp; exact Option.noConfusion hexp
        | bool b => rw [hj] at hexp; exact Option.noConfusion hexp
        | str s => rw [hj] at hexp; exact Option.noConfusion hexp
        | arr es => rw [hj] at hexp; exact Option.noConfusion hexp
        | obj fs => rw [hj] at hexp; exact Option.noConfusion hexp
    have hrun : isTokenExpired st now = .ok (decide ((now : Int) > e * 1000 - 60000)) := by
      unfold isTokenExpired
      rw [if_neg hne]
      simp only [hp, hj]
    refine ⟨?_, ?_, ?_⟩
    · rw [hrun]
      constructor
      · intro h
        have : decide ((now : Int) > e * 1000 - 60000) = true := by
          exact (Except.ok.inj h)
        exact of_decide_eq_true this
      · intro h
        rw [decide_eq_true h]
    · intro h
      rw [hrun, decide_eq_true (by omega : (now : Int) > e * 1000 - 60000)]
    · intro h
      rw [hrun, decide_eq_false (by omega : ¬((now : Int) > e * 1000 - 60000))]

/-- Witness for C1 (amended): a fresh token (`exp` one hour from now,
here `exp` = 3600 s with `now` = 0) is not expired; a stale one
(`exp` = 61 s, `now` = 31000 ms, i.e. `exp` 30 s ahead) is expired; a
payload without a numeric `exp` is a hard failure. -/
theorem isTokenExpired_spec_witness :
    isTokenExpired { proxyToken := "p", token := "e30.eyJleHAiOjM2MDB9.s" } 0 = .ok false ∧
    isTokenExpired { proxyToken := "p", token := "e30.eyJleHAiOjYxfQ.s" } 31000 = .ok true ∧
    isTokenExpired { proxyToken := "p", token := "e30.eyJhdWQiOiJ4In0.s" } 0
      = .error .invalidOrMalformedToken :=
  ⟨((isTokenExpired_spec { proxyToken := "p", token := "e30.eyJleHAiOjM2MDB9.s" } 0).2.2
      (.obj [("exp", .num 3600)]) 3600 (by decide) (by rfl) (by rfl)).2.2 (by decide),
   ((isTokenExpired_spec { proxyToken := "p", token := "e30.eyJleHAiOjYxfQ.s" } 31000).2.2
      (.obj [("exp", .num 61)]) 61 (by decide) (by rfl) (by rfl)).2.1 (by decide),
   (isTokenExpired_spec { proxyToken := "p", token := "e30.eyJhdWQiOiJ4In0.s" } 0).2.1
      (.obj [("aud", .str "x")]) (by decide) (by rfl) (by rfl)⟩

/-- C6: the exchange operation sends exactly one POST request to
`{aud}/token/exchange` (`aud` read from the long-lived credential's decoded
claims) carrying the Content-Type, millisecond-timestamp and source-identity
headers and the JSON body `\x7b token: longLivedCredential \x7d`; a
non-success response fails with an ExchangeFailed error embedding the HTTP
status; a success replaces the held access credential with the response
body's `token` field; and a claims-decode failure propagates with no request
sent. -/
theorem exchange_spec (st : State) (now : Nat) (resp : ExchangeResp) :
    (∀ e, getTokenPayload st.proxyToken = .error e →
      exchange st now resp = (.error e, [])) ∧
    (∀ p a, getTokenPayload st.proxyToken = .ok p → jGet p "aud" = some (.str a) →
      (exchange st now resp).2 =
        [{ url := a ++ "/token/exchange"
           method := "POST"
           headers := [("Content-Type", "application/json"),
                       (HeaderTimestamp0, toString now),
                       (HeaderSource0, SourceName)]
           bodyToken := st.proxyToken }] ∧
      (resp.ok = false → (exchange st now resp).1 = .error (.exchangeFailed resp.status)) ∧
      (resp.ok = true → (exchange st now resp).1 = .ok { st with token := resp.tokenField })) := by
  constructor
  · intro e he
    simp [exchange, he]
  · intro p a hp ha
    refine ⟨?_, ?_, ?_⟩
    · cases hok : resp.ok <;> simp [exchange, hp, jsToString, ha, hok]
    · intro hok
      simp [exchange, hp, hok]
    · intro hok
      simp [exchange, hp, hok]

/-- Witness for C6: a long-lived credential whose claims carry
`aud = "https://t.example"`, exercised against a failing (500) and a
successful exchange response. -/
theorem exchange_spec_witness :
    (exchange { proxyToken := "e30.eyJhdWQiOiJodHRwczovL3QuZXhhbXBsZSJ9.s" } 1700000000000
        ⟨false, 500, ""⟩).1 = .error (.exchangeFailed 500) ∧
    (exchange { proxyToken := "e30.eyJhdWQiOiJodHRwczovL3QuZXhhbXBsZSJ9.s" } 1700000000000
        ⟨false, 500, ""⟩).2 =
      [{ url := "https://t.example/token/exchange"
         method := "POST"
         headers := [("Content-Type", "application/json"),
                     ("gg-x-timestamp", "1700000000000"),
                     ("gg-x-source", "client")]
         bodyToken := "e30.eyJhdWQiOiJodHRwczovL3QuZXhhbXBsZSJ9.s" }] ∧
    (exchange { proxyToken := "e30.eyJhdWQiOiJodHRwczovL3QuZXhhbXBsZSJ9.s" } 1700000000000
        ⟨true, 200, "newAccessToken"⟩).1 =
      .ok { proxyToken := "e30.eyJhdWQiOiJodHRwczovL3QuZXhhbXBsZSJ9.s",
            token := "newAccessToken" } :=
  ⟨((exchange_spec { proxyToken := "e30.eyJhdWQiOiJodHRwczovL3QuZXhhbXBsZSJ9.s" }
      1700000000000 ⟨false, 500, ""⟩).2 (.obj [("aud", .str "https://t.example")])
      "https://t.example" (by rfl) (by rfl)).2.1 rfl,
   ((exchange_spec { proxyToken := "e30.eyJhdWQiOiJodHRwczovL3QuZXhhbXBsZSJ9.s" }
      1700000000000 ⟨false, 500, ""⟩).2 (.obj [("aud", .str "https://t.example")])
      "https://t.example" (by rfl) (by rfl)).1,
   ((exchange_spec { proxyToken := "e30.eyJhdWQiOiJodHRwczovL3QuZXhhbXBsZSJ9.s" }
      1700000000000 ⟨true, 200, "newAccessToken"⟩).2 (.obj [("aud", .str "https://t.example")])
      "https://t.example" (by rfl) (by rfl)).2.2 rfl⟩

/-! ## Round-trip development for C4 -/

theorem charSextet_sextetChar : ∀ n, n < 64 → charSextet (sextetChar n) = some n := by
  decide

theorem sextetChar_ne_eq : ∀ n, n < 64 → sextetChar n ≠ '=' := by
  decide

theorem stdToUrlChar_sextet_ne_eq : ∀ n, n < 64 → (stdToUrlChar (sextetChar n) == '=') = false := by
  decide

theorem urlToStd_stdToUrl_sextet : ∀ n, n < 64 →
    urlToStdChar (stdToUrlChar (sextetChar n)) = sextetChar n := by
  decide

theorem isB64Ws_sextet : ∀ n, n < 64 → isB64Ws (sextetChar n) = false := by
  decide

/-- Chunk-of-three induction matching the group structure of base64. -/
theorem chunk3_induction (P : List Nat → Prop) (h0 : P []) (h1 : ∀ b, P [b])
    (h2 : ∀ b c, P [b, c]) (h3 : ∀ b c d rest, P rest → P (b :: c :: d :: rest)) :
    ∀ l, P l := by
  have key : ∀ n l, l.length ≤ n → P l := by
    intro n
    induction n with
    | zero =>
      intro l hl
      cases l with
      | nil => exact h0
      | cons a t => simp at hl
    | succ n ih =>
      intro l hl
      match l with
      | [] => exact h0
      | [b] => exact h1 b
      | [b, c] => exact h2 b c
      | b :: c :: d :: rest =>
        refine h3 b c d rest (ih rest ?_)
        simp [List.length_cons] at hl
        omega
  exact fun l => key l.length l le_rfl

theorem byteSextets_lt (l : List Nat) (h : ∀ b ∈ l, b < 256) :
    ∀ n ∈ byteSextets l, n < 64 := by
  induction l using chunk3_induction with
  | h0 => simp [byteSextets]
  | h1 b =>
    have hb := h b (by simp)
    simp [byteSextets]
    omega
  | h2 b c =>
    have hb := h b (by simp)
    have hc := h c (by simp)
    simp [byteSextets]
    omega
  | h3 b c d rest ih =>
    have hb := h b (by simp)
    have hc := h c (by simp)
    have hd := h d (by simp)
    have hrest : ∀ x ∈ rest, x < 256 := fun x hx => h x (by simp [hx])
    intro n hn
    simp [byteSextets] at hn
    rcases hn with h' | h' | h' | h' | h'
    · omega
    · omega
    · omega
    · omega
    · exact ih hrest n h'

theorem byteSextets_len_mod (l : List Nat) : (byteSextets l).length % 4 ≠ 1 := by
  induction l using chunk3_induction with
  | h0 => simp [byteSextets]
  | h1 b => simp [byteSextets]
  | h2 b c => simp [byteSextets]
  | h3 b c d rest ih =>
    simp [byteSextets, List.length_cons] at ih ⊢
    omega

theorem decodeSextets_byteSextets (l : List Nat) (h : ∀ b ∈ l, b < 256) :
    decodeSextets (byteSextets l) = some l := by
  induction l using chunk3_induction with
  | h0 => rfl
  | h1 b =>
    have hb := h b (by simp)
    simp [byteSextets, decodeSextets]
    omega
  | h2 b c =>
    have hb := h b (by simp)
    have hc := h c (by simp)
    simp [byteSextets, decodeSextets]
    constructor
    · omega
    · omega
  | h3 b c d rest ih =>
    have hb := h b (by simp)
    have hc := h c (by simp)
    have hd := h d (by simp)
    have hrest : ∀ x ∈ rest, x < 256 := fun x hx => h x (by simp [hx])
    simp [byteSextets, decodeSextets, ih hrest]
    refine ⟨?_, ?_, ?_⟩
    · omega
    · omega
    · omega

theorem sextetsOf_map (ns : List Nat) (h : ∀ n ∈ ns, n < 64) :
    sextetsOf (ns.map sextetChar) = some ns := by
  induction ns with
  | nil => rfl
  | cons n rest ih =>
    have hn : n < 64 := h n (by simp)
    have hr := ih (fun m hm => h m (by simp [hm]))
    simp [sextetsOf, charSextet_sextetChar n hn, hr]

theorem b64urlToStd_stdToUrl (ns : List Nat) (h : ∀ n ∈ ns, n < 64) :
    b64urlToStd (stdToUrl (ns.map sextetChar)) = ns.map sextetChar := by
  induction ns with
  | nil => rfl
  | cons n rest ih =>
    have hn : n < 64 := h n (by simp)
    have hr := ih (fun m hm => h m (by simp [hm]))
    simp only [b64urlToStd, stdToUrl, List.map_cons] at hr ⊢
    rw [urlToStd_stdToUrl_sextet n hn, hr]

theorem stripTrailingEq_cons (c : Char) (t : List Char) :
    stripTrailingEq (c :: t) =
      if c == '=' && (stripTrailingEq t).isEmpty then [] else c :: stripTrailingEq t := rfl

/-- Stripping trailing `'='` after the URL-safe substitution of a padded
base64 group sequence leaves exactly the substituted data characters. -/
theorem enc_strip (l : List Nat) (h : ∀ b ∈ l, b < 256) :
    stripTrailingEq (stdToUrl (btoaBytes l)) =
      stdToUrl ((byteSextets l).map sextetChar) := by
  induction l using chunk3_induction with
  | h0 => rfl
  | h1 b =>
    have h0 : b / 4 < 64 := by
      have := h b (by simp)
      omega
    have h1' : b % 4 * 16 < 64 := by omega
    simp [btoaBytes, byteSextets, stdToUrl, stripTrailingEq_cons,
      stdToUrlChar_sextet_ne_eq _ h0, stdToUrlChar_sextet_ne_eq _ h1']
    exact ⟨rfl, rfl⟩
  | h2 b c =>
    have hb := h b (by simp)
    have hc := h c (by simp)
    have h0 : b / 4 < 64 := by omega
    have h1' : b % 4 * 16 + c / 16 < 64 := by omega
    have h2' : c % 16 * 4 < 64 := by omega
    simp [btoaBytes, byteSextets, stdToUrl, stripTrailingEq_cons,
      stdToUrlChar_sextet_ne_eq _ h0, stdToUrlChar_sextet_ne_eq _ h1',
      stdToUrlChar_sextet_ne_eq _ h2']
    exact ⟨rfl, rfl⟩
  | h3 b c d rest ih =>
    have hb := h b (by simp)
    have hc := h c (by simp)
    have hd := h d (by simp)
    have hrest : ∀ x ∈ rest, x < 256 := fun x hx => h x (by simp [hx])
    have h0 : b / 4 < 64 := by omega
    have h1' : b % 4 * 16 + c / 16 < 64 := by omega
    have h2' : c % 16 * 4 + d / 64 < 64 := by omega
    have h3' : d % 64 < 64 := by omega
    simp only [btoaBytes, byteSextets, stdToUrl, List.map_cons] at ih ⊢
    rw [stripTrailingEq_cons, stripTrailingEq_cons, stripTrailingEq_cons, stripTrailingEq_cons]
    simp [stdToUrlChar_sextet_ne_eq _ h0, stdToUrlChar_sextet_ne_eq _ h1',
      stdToUrlChar_sextet_ne_eq _ h2', stdToUrlChar_sextet_ne_eq _ h3', ih hrest,
      List.map_map]

/-- Stripping up to two trailing `'='` from data that ends in `k ≤ 2` pad
characters recovers the data exactly. -/
theorem stripUpTo2Eq_pad (cs : List Char) (k : Nat) (hk : k ≤ 2)
    (h : ∀ c ∈ cs, c ≠ '=') :
    stripUpTo2Eq (cs ++ List.replicate k '=') = cs := by
  interval_cases k
  · unfold stripUpTo2Eq
    simp only [List.replicate, List.append_nil]
    cases hr : cs.reverse with
    | nil =>
      have : cs = [] := by simpa using congrArg List.reverse hr
      simp [this]
    | cons a t =>
      have ha : a ∈ cs := by
        have : a ∈ cs.reverse := by simp [hr]
        simpa using this
      have hne : a ≠ '=' := h a ha
      rcases eq_or_ne a '=' with h' | h'
      · exact absurd h' hne
      · cases t with
        | nil => simp [hr, h']
        | cons b t' =>
          rcases eq_or_ne b '=' with h'' | h'' <;> simp [hr, h', h'']
  · unfold stripUpTo2Eq
    rw [List.reverse_append]
    simp only [List.replicate, List.reverse_cons, List.reverse_nil, List.nil_append,
      List.cons_append, List.singleton_append]
    cases hr : cs.reverse with
    | nil =>
      have : cs = [] := by simpa using congrArg List.reverse hr
      simp [this]
    | cons a t =>
      have ha : a ∈ cs := by
        have : a ∈ cs.reverse := by simp [hr]
        simpa using this
      have hne : a ≠ '=' := h a ha
      rcases eq_or_ne a '=' with h' | h'
      · exact absurd h' hne
      · simp [h']
        have : (a :: t).reverse = cs := by
          rw [← hr]
          simp
        simpa using this
  · unfold stripUpTo2Eq
    rw [List.reverse_append]
    simp only [List.replicate, List.reverse_cons, List.reverse_nil, List.nil_append,
      List.cons_append, List.singleton_append]
    simp

/-- `atob` on the re-padded, substitution-reversed output of the encoder
recovers exactly the original bytes. -/
theorem atobModel_pad_roundtrip (l : List Nat) (h : ∀ b ∈ l, b < 256) :
    atobModel (String.mk ((byteSextets l).map sextetChar ++
      List.replicate ((4 - ((byteSextets l).map sextetChar).length % 4) % 4) '=')) =
      some l := by
  have hsex : ∀ n ∈ byteSextets l, n < 64 := byteSextets_lt l h
  set NS := byteSextets l with hNS
  set k := (4 - (NS.map sextetChar).length % 4) % 4 with hkdef
  have hlenmod : NS.length % 4 ≠ 1 := byteSextets_len_mod l
  have hknot : k ≤ 2 := by
    simp only [hkdef, List.length_map]
    omega
  have hnows : ∀ c ∈ NS.map sextetChar ++ List.replicate k '=', isB64Ws c = false := by
    intro c hc
    rcases List.mem_append.mp hc with hc | hc
    · obtain ⟨n, hn, rfl⟩ := List.mem_map.mp hc
      exact isB64Ws_sextet n (hsex n hn)
    · have : c = '=' := List.eq_of_mem_replicate hc
      subst this
      rfl
  have hfil : (NS.map sextetChar ++ List.replicate k '=').filter (fun c => !(isB64Ws c)) =
      NS.map sextetChar ++ List.replicate k '=' := by
    refine List.filter_eq_self.mpr ?_
    intro a ha
    simp [hnows a ha]
  have hne : ∀ c ∈ NS.map sextetChar, c ≠ '=' := by
    intro c hc
    obtain ⟨n, hn, rfl⟩ := List.mem_map.mp hc
    exact sextetChar_ne_eq n (hsex n hn)
  have hpadlen : (NS.map sextetChar ++ List.replicate k '=').length % 4 = 0 := by
    simp only [List.length_append, List.length_map, List.length_replicate, hkdef]
    omega
  have hstrip : stripUpTo2Eq (NS.map sextetChar ++ List.replicate k '=') =
      NS.map sextetChar := stripUpTo2Eq_pad (NS.map sextetChar) k hknot hne
  have hstriplen : (NS.map sextetChar).length % 4 ≠ 1 := by
    simp only [List.length_map]
    exact hlenmod
  unfold atobModel
  simp only [hfil, hpadlen, if_pos, hstrip]
  rw [if_neg hstriplen]
  rw [sextetsOf_map NS hsex]
  exact decodeSextets_byteSextets l h

theorem char_toNat_lt (c : Char) : c.toNat < 1114112 := by
  have h := c.valid
  unfold UInt32.isValidChar Nat.isValidChar at h
  rcases h with h | ⟨h1, h2⟩
  · have : c.val.toNat < 55296 := h
    simp [Char.toNat]
    omega
  · have : c.val.toNat < 1114112 := h2
    simp [Char.toNat]
    omega

theorem decode_step1 (f : Nat) (b0 : Nat) (T : List Nat) (h0 : b0 < 0x80) :
    utf8DecodeList (f + 1) (b0 :: T) =
      (utf8DecodeList f T).map (Char.ofNat b0 :: ·) := by
  simp only [utf8DecodeList]
  rw [if_pos h0]

theorem decode_step2 (f : Nat) (b0 b1 : Nat) (T : List Nat)
    (h0 : 0xC2 ≤ b0) (h1 : b0 < 0xE0) (h2 : 0x80 ≤ b1) (h3 : b1 < 0xC0) :
    utf8DecodeList (f + 1) (b0 :: b1 :: T) =
      (utf8DecodeList f T).map (Char.ofNat ((b0 - 0xC0) * 64 + (b1 - 0x80)) :: ·) := by
  simp only [utf8DecodeList]
  rw [if_neg (by omega), if_neg (by omega), if_pos (by omega)]
  rw [if_pos ⟨h2, h3⟩]

theorem decode_step3 (f : Nat) (b0 b1 b2 : Nat) (T : List Nat)
    (h0 : 0xE0 ≤ b0) (h1 : b0 < 0xF0) (h2 : 0x80 ≤ b1) (h3 : b1 < 0xC0)
    (h4 : 0x80 ≤ b2) (h5 : b2 < 0xC0)
    (h6 : 0x800 ≤ (b0 - 0xE0) * 4096 + (b1 - 0x80) * 64 + (b2 - 0x80)) :
    utf8DecodeList (f + 1) (b0 :: b1 :: b2 :: T) =
      (utf8DecodeList f T).map
        (Char.ofNat ((b0 - 0xE0) * 4096 + (b1 - 0x80) * 64 + (b2 - 0x80)) :: ·) := by
  simp only [utf8DecodeList]
  rw [if_neg (by omega), if_neg (by omega), if_neg (by omega), if_pos (by omega)]
  rw [if_pos ⟨⟨h2, h3⟩, h4, h5⟩]
  rw [if_pos h6]

theorem decode_step4 (f : Nat) (b0 b1 b2 b3 : Nat) (T : List Nat)
    (h0 : 0xF0 ≤ b0) (h1 : b0 < 0xF5) (h2 : 0x80 ≤ b1) (h3 : b1 < 0xC0)
    (h4 : 0x80 ≤ b2) (h5 : b2 < 0xC0) (h6 : 0x80 ≤ b3) (h7 : b3 < 0xC0)
    (h8 : 0x10000 ≤ (b0 - 0xF0) * 262144 + (b1 - 0x80) * 4096 + (b2 - 0x80) * 64 + (b3 - 0x80))
    (h9 : (b0 - 0xF0) * 262144 + (b1 - 0x80) * 4096 + (b2 - 0x80) * 64 + (b3 - 0x80) < 1114112) :
    utf8DecodeList (f + 1) (b0 :: b1 :: b2 :: b3 :: T) =
      (utf8DecodeList f T).map
        (Char.ofNat ((b0 - 0xF0) * 262144 + (b1 - 0x80) * 4096 + (b2 - 0x80) * 64 + (b3 - 0x80)) :: ·) := by
  simp only [utf8DecodeList]
  rw [if_neg (by omega), if_neg (by omega), if_neg (by omega), if_neg (by omega),
    if_pos (by omega)]
  rw [if_pos ⟨⟨⟨h2, h3⟩, h4, h5⟩, h6, h7⟩]
  rw [if_pos ⟨h8, h9⟩]

theorem utf8DecodeList_encodeList (cs : List Char) :
    ∀ fuel, (utf8EncodeList cs).length ≤ fuel →
      utf8DecodeList fuel (utf8EncodeList cs) = some cs := by
  induction cs with
  | nil =>
    intro fuel _
    cases fuel <;> rfl
  | cons c rest ih =>
    intro fuel hlen
    have hc : c.toNat < 1114112 := char_toNat_lt c
    set n := c.toNat with hn
    obtain ⟨f, rfl⟩ : ∃ f, fuel = f + 1 := by
      cases fuel with
      | zero =>
        exfalso
        unfold utf8EncodeList utf8EncodeChar at hlen
        split_ifs at hlen <;> simp at hlen
      | succ f => exact ⟨f, rfl⟩
    by_cases h1 : n < 0x80
    · have e1 : utf8EncodeChar n = [n] := by
        unfold utf8EncodeChar
        rw [if_pos h1]
      have hlen' : (utf8EncodeList rest).length ≤ f := by
        simp only [utf8EncodeList, e1, List.length_append, List.length_cons,
          List.length_nil] at hlen ⊢
        omega
      simp only [utf8EncodeList, e1, List.cons_append, List.nil_append]
      rw [decode_step1 f n _ h1, ih f hlen', hn, Char.ofNat_toNat]
      rfl
    · by_cases h2 : n < 0x800
      · have e1 : utf8EncodeChar n = [0xC0 + n / 64, 0x80 + n % 64] := by
          unfold utf8EncodeChar
          rw [if_neg h1, if_pos h2]
        have hlen' : (utf8EncodeList rest).length ≤ f := by
          simp only [utf8EncodeList, e1, List.length_append, List.length_cons,
            List.length_nil] at hlen ⊢
          omega
        simp only [utf8EncodeList, e1, List.cons_append, List.nil_append]
        rw [decode_step2 f _ _ _ (by omega) (by omega) (by omega) (by omega)]
        rw [show (0xC0 + n / 64 - 0xC0) * 64 + (0x80 + n % 64 - 0x80) = n from by omega]
        rw [ih f hlen', hn, Char.ofNat_toNat]
        rfl
      · by_cases h3 : n < 0x10000
        · have e1 : utf8EncodeChar n = [0xE0 + n / 4096, 0x80 + n / 64 % 64, 0x80 + n % 64] := by
            unfold utf8EncodeChar
            rw [if_neg h1, if_neg h2, if_pos h3]
          have hlen' : (utf8EncodeList rest).length ≤ f := by
            simp only [utf8EncodeList, e1, List.length_append, List.length_cons,
              List.length_nil] at hlen ⊢
            omega
          simp only [utf8EncodeList, e1, List.cons_append, List.nil_append]
          rw [decode_step3 f _ _ _ _ (by omega) (by omega) (by omega) (by omega)
            (by omega) (by omega) (by omega)]
          rw [show (0xE0 + n / 4096 - 0xE0) * 4096 + (0x80 + n / 64 % 64 - 0x80) * 64 +
            (0x80 + n % 64 - 0x80) = n from by omega]
          rw [ih f hlen', hn, Char.ofNat_toNat]
          rfl
        · have e1 : utf8EncodeChar n =
              [0xF0 + n / 262144, 0x80 + n / 4096 % 64, 0x80 + n / 64 % 64, 0x80 + n % 64] := by
            unfold utf8EncodeChar
            rw [if_neg h1, if_neg h2, if_neg h3]
          have hlen' : (utf8EncodeList rest).length ≤ f := by
            simp only [utf8EncodeList, e1, List.length_append, List.length_cons,
              List.length_nil] at hlen ⊢
            omega
          simp only [utf8EncodeList, e1, List.cons_append, List.nil_append]
          rw [decode_step4 f _ _ _ _ _ (by omega) (by omega) (by omega) (by omega)
            (by omega) (by omega) (by omega) (by omega) (by omega) (by omega)]
          rw [show (0xF0 + n / 262144 - 0xF0) * 262144 + (0x80 + n / 4096 % 64 - 0x80) * 4096 +
            (0x80 + n / 64 % 64 - 0x80) * 64 + (0x80 + n % 64 - 0x80) = n from by omega]
          rw [ih f hlen', hn, Char.ofNat_toNat]
          rfl

theorem utf8EncodeChar_lt (n : Nat) (h : n < 1114112) : ∀ b ∈ utf8EncodeChar n, b < 256 := by
  unfold utf8EncodeChar
  split_ifs with h1 h2 h3 <;> simp <;> omega

theorem utf8EncodeList_lt (cs : List Char) : ∀ b ∈ utf8EncodeList cs, b < 256 := by
  induction cs with
  | nil => simp [utf8EncodeList]
  | cons c rest ih =>
    intro b hb
    simp only [utf8EncodeList, List.mem_append] at hb
    rcases hb with hb | hb
    · exact utf8EncodeChar_lt c.toNat (char_toNat_lt c) b hb
    · exact ih b hb

/-- C4: for every normalized destination href, the dispatched proxy URL has
exactly the form `https://{scope}.bridggy.com/proxy?u=` followed by the
unpadded URL-safe base64 encoding of the href (standard base64 over the
UTF-8 bytes, `+` to `-`, `/` to `_`, trailing `=` stripped), and reversing
that transform on the `u` value reconstructs the href exactly — for any
href, including ones containing `&`, `=`, `+`, `/`. -/
theorem proxyUrl_roundtrip (scope href : String) :
    mkProxyUrl scope (b64urlEncode href) =
      "https://" ++ scope ++ ".bridggy.com/proxy?u=" ++ b64urlEncode href ∧
    b64urlDecode (b64urlEncode href) = some href := by
  refine ⟨rfl, ?_⟩
  have hbytes : ∀ b ∈ utf8Encode href, b < 256 := by
    unfold utf8Encode
    exact utf8EncodeList_lt href.data
  have hsex : ∀ n ∈ byteSextets (utf8Encode href), n < 64 :=
    byteSextets_lt (utf8Encode href) hbytes
  have henc : (b64urlEncode href).data =
      stdToUrl ((byteSextets (utf8Encode href)).map sextetChar) := by
    show (String.mk (stripTrailingEq (stdToUrl (btoaBytes (utf8Encode href))))).data = _
    show stripTrailingEq (stdToUrl (btoaBytes (utf8Encode href))) = _
    exact enc_strip (utf8Encode href) hbytes
  unfold b64urlDecode
  rw [henc]
  dsimp only
  rw [show b64urlToStd (stdToUrl ((byteSextets (utf8Encode href)).map sextetChar)) =
    (byteSextets (utf8Encode href)).map sextetChar from
    b64urlToStd_stdToUrl (byteSextets (utf8Encode href)) hsex]
  rw [atobModel_pad_roundtrip (utf8Encode href) hbytes]
  dsimp only
  rw [show utf8DecodeList (utf8Encode href).length (utf8Encode href) = some href.data from
    utf8DecodeList_encodeList href.data (utf8Encode href).length le_rfl]
  rfl
